import Mathlib

/-!
# remotes/errors: `ErrUnexpectedStatus` and `NewUnexpectedStatusErr`

A shallow embedding of `src/remotes/errors/errors.go`.

* Go strings are Lean `String`s, `[]byte` is `List Byte`, `int` is `Int`.
* Pointers that the code dereferences or tests against `nil`
  (`resp.Body`, `resp.Request`, `resp.Request.URL`) are `Option`s.
* The standard library pieces the function calls (`io.LimitReader`, `io.ReadAll`,
  `fmt.Sprintf`) are embedded next to it; `json.Unmarshal`, `(*url.URL).String` and the
  capacity that `append` picks are supplied by an environment `Env`.
* The logging sink and the calls of the decoder are recorded in an explicit `World`.
* `io.ReadAll` is an unbounded `for` loop; it is embedded with a fuel argument.
-/

namespace Errors

abbrev Byte := UInt8

/-! ## Readers (package io) -/

/-- Go `error` values a reader can report; `io.EOF` is told apart from every other error. -/
inductive IOError where
  | EOF
  | other (msg : String)
deriving DecidableEq, Repr

/-- What one call `Read(p)` yields: the bytes stored in `p` (`n` is their number), the
error, and the reader afterwards. -/
structure ReadResult (ρ : Type) where
  data : List Byte
  err : Option IOError
  next : ρ

/-- The body stream handed over by the HTTP transport (`resp.Body`, an `io.ReadCloser`):
the transport delivers the chunks in order, one chunk per arrival, and once they are
used up every further `Read` reports `final` (`io.EOF` for a body that ended, another
error for a body that failed part-way). An empty chunk is a `Read` that returns
`0, nil`. The list is finite: a body that stalls for ever is not described. -/
structure BodyStream where
  chunks : List (List Byte)
  final : IOError
deriving DecidableEq, Repr

/-- The call `Read(p)` on the body stream with `len(p) = k`: hands out what has arrived, at most
`k` bytes of it. -/
def BodyStream.Read (s : BodyStream) (k : Nat) : ReadResult BodyStream :=
  match s.chunks with
  | [] => ⟨[], some s.final, s⟩
  | c :: rest =>
    if c.length ≤ k then ⟨c, none, { s with chunks := rest }⟩
    else ⟨c.take k, none, { s with chunks := c.drop k :: rest }⟩

/-- All bytes the stream delivers before it ends or fails. -/
def BodyStream.bytes (s : BodyStream) : List Byte := s.chunks.flatten

/-- Number of `Read` calls that certainly drain the stream. -/
def BodyStream.size (s : BodyStream) : Nat := (s.chunks.map (fun c => c.length + 1)).sum

/-- The type `io.LimitedReader`: reads from `R` but stops with EOF after `N` bytes. -/
structure LimitedReader (ρ : Type) where
  R : ρ
  N : Int

/-- The constructor `io.LimitReader(r, n)`. -/
def LimitReader {ρ : Type} (r : ρ) (n : Int) : LimitedReader ρ := ⟨r, n⟩

/-- The method `(*LimitedReader).Read`:
```go
if l.N <= 0 { return 0, EOF }
if int64(len(p)) > l.N { p = p[0:l.N] }
n, err = l.R.Read(p)
l.N -= int64(n)
``` -/
def LimitedReader.Read {ρ : Type} (read : ρ → Nat → ReadResult ρ) (l : LimitedReader ρ)
    (k : Nat) : ReadResult (LimitedReader ρ) :=
  if l.N ≤ 0 then ⟨[], some IOError.EOF, l⟩
  else
    let k := if (k : Int) > l.N then l.N.toNat else k
    let res := read l.R k
    ⟨res.data, res.err, ⟨res.next, l.N - (res.data.length : Int)⟩⟩

/-- The loop of `io.ReadAll`, entered with buffer contents `b` and capacity `cap`:
```go
for {
    n, err := r.Read(b[len(b):cap(b)])
    b = b[:len(b)+n]
    if err != nil {
        if err == EOF { err = nil }
        return b, err
    }
    if len(b) == cap(b) { b = append(b, 0)[:len(b)] }
}
```
`grow` is the capacity `append` picks for a full slice. `none` means the fuel ran out. -/
def ReadAll.loop {ρ : Type} (read : ρ → Nat → ReadResult ρ) (grow : Nat → Nat) :
    Nat → ρ → List Byte → Nat → Option (List Byte × Option IOError)
  | 0, _, _, _ => none
  | fuel + 1, r, b, cap =>
    let res := read r (cap - b.length)
    let b := b ++ res.data
    match res.err with
    | some e => some (b, if e = IOError.EOF then none else some e)
    | none =>
      let cap := if b.length = cap then grow cap else cap
      ReadAll.loop read grow fuel res.next b cap

/-- The function `io.ReadAll(r)`: starts from `make([]byte, 0, 512)`. -/
def ReadAll {ρ : Type} (read : ρ → Nat → ReadResult ρ) (grow : Nat → Nat) (fuel : Nat)
    (r : ρ) : Option (List Byte × Option IOError) :=
  ReadAll.loop read grow fuel r [] 512

/-! ## Formatting (package fmt) -/

/-- The function `fmt.Sprintf` for operands that are strings (an `error` operand is passed as its
`Error()` text): the verbs `%s` and `%v` write the operand, `%%` writes a percent sign;
a wrong verb, a missing operand, a lone `%` at the end and left-over operands are
reported the way package fmt does. -/
def Sprintf.go : List Char → List String → List Char
  | [], [] => []
  | [], a :: args =>
    ("%!(EXTRA " ++ ", ".intercalate ((a :: args).map fun x => "string=" ++ x) ++ ")").data
  | '%' :: [], args => "%!(NOVERB)".data ++ Sprintf.go [] args
  | '%' :: '%' :: rest, args => '%' :: Sprintf.go rest args
  | '%' :: v :: rest, [] => ("%!" ++ String.singleton v ++ "(MISSING)").data ++ Sprintf.go rest []
  | '%' :: v :: rest, a :: args =>
    if v = 's' ∨ v = 'v' then a.data ++ Sprintf.go rest args
    else ("%!" ++ String.singleton v ++ "(string=" ++ a ++ ")").data ++ Sprintf.go rest args
  | c :: rest, args => c :: Sprintf.go rest args

/-- The call `fmt.Sprintf(format, args...)` with string operands. -/
def Sprintf (format : String) (args : List String) : String :=
  String.mk (Sprintf.go format.data args)

/-! ## The error value -/

/-- ErrUnexpectedStatus is returned if a registry API request returned with unexpected
HTTP status. -/
structure ErrUnexpectedStatus where
  Status : String
  StatusCode : Int
  Body : List Byte
  RequestURL : String
  RequestMethod : String
  Message : String
deriving DecidableEq, Repr

/-- The method `func (e ErrUnexpectedStatus) Error() string`. -/
def ErrUnexpectedStatus.Error (e : ErrUnexpectedStatus) : String :=
  Sprintf "unexpected status(%s) from %s request to %s: %s"
    [e.Status, e.RequestMethod, e.RequestURL, e.Message]

/-! ## The response and its collaborators -/

/-- The type `dtspecv1.ErrorInfo` of the distribution spec. -/
structure ErrorInfo where
  Code : String
  Message : String
  Detail : String
deriving DecidableEq, Repr

/-- The type `dtspecv1.ErrorResponse` of the distribution spec. -/
structure ErrorResponse where
  Errors : List ErrorInfo
deriving DecidableEq, Repr

/-- The fields of `url.URL` that make up a registry URL. -/
structure URL where
  Scheme : String
  Host : String
  Path : String
  RawQuery : String
deriving DecidableEq, Repr

/-- The type `http.Request`, as far as the constructor looks at it. `URL` is a pointer. -/
structure Request where
  Method : String
  URL : Option URL
deriving DecidableEq, Repr

/-- The type `http.Response`, as far as the constructor looks at it. `Body` is an interface value
and `Request` a pointer; both may be nil. -/
structure Response where
  Status : String
  StatusCode : Int
  Body : Option BodyStream
  Request : Option Request
deriving DecidableEq, Repr

/-- What the constructor takes from outside this repository. -/
structure Env where
  /-- The call `json.Unmarshal(b, &r)` on a zero `r`: what is in `r` afterwards, and the error. -/
  Unmarshal : List Byte → ErrorResponse × Option String
  /-- The method `(*url.URL).String`. -/
  URLString : URL → String
  /-- Capacity that `append` gives a full slice of the given capacity. -/
  growslice : Nat → Nat
  growslice_gt : ∀ c, c < growslice c

/-- What a call leaves behind outside its result: the lines handed to the logging sink
and the inputs handed to the decoder. -/
structure World where
  log : List String
  decoded : List (List Byte)
deriving DecidableEq, Repr

/-- How a call ends: with the error value, or in a run-time panic. -/
inductive Outcome where
  | returned (err : ErrUnexpectedStatus)
  | panicked (msg : String)
deriving DecidableEq, Repr

/-- The text of the panic Go raises when a nil pointer is dereferenced. -/
def nilDereference : String := "runtime error: invalid memory address or nil pointer dereference"

/-- The `for _, e := range r.Errors` loop: a later non-empty message overwrites. -/
def lastMessage (errors : List ErrorInfo) : String :=
  errors.foldl (fun message e => if 0 < e.Message.length then e.Message else message) ""

/-- Lines 51 to 62 of `NewUnexpectedStatusErr`, run on the bytes `b` that were read: when
`len(b) > 0` the bytes are decoded, a decode error is logged with `Debugf` and the loop
over `r.Errors` runs in either case; yields `message` and the world afterwards. -/
def decodeMessage (env : Env) (b : List Byte) (w : World) : String × World :=
  if 0 < b.length then
    let (r, err) := env.Unmarshal b
    let w := { w with decoded := w.decoded ++ [b] }
    let w :=
      match err with
      | some e => { w with log := w.log ++ [Sprintf "Unmarshal response body failed: %v" [e]] }
      | none => w
    (lastMessage r.Errors, w)
  else ("", w)

/-- Lines 64 to 74 of `NewUnexpectedStatusErr`: the struct literal, which dereferences
`resp.Request`, then the conditional assignment of `RequestURL`. -/
def assemble (env : Env) (resp : Response) (b : List Byte) (message : String) : Outcome :=
  match resp.Request with
  | none => Outcome.panicked nilDereference
  | some req =>
    let err : ErrUnexpectedStatus :=
      { Body := b, Status := resp.Status, StatusCode := resp.StatusCode,
        RequestMethod := req.Method, Message := message, RequestURL := "" }
    let err :=
      match req.URL with
      | some u => { err with RequestURL := env.URLString u }
      | none => err
    Outcome.returned err

/-- NewUnexpectedStatusErr creates an ErrUnexpectedStatus from HTTP response.
The read error of `io.ReadAll` is dropped (`b, _ =`). `none` means the fuel of the read
loop ran out. -/
def NewUnexpectedStatusErr (env : Env) (fuel : Nat) (resp : Response) (w : World) :
    Option (Outcome × World) :=
  match resp.Body with
  | none => some (assemble env resp [] "", w)
  | some body =>
    match ReadAll (LimitedReader.Read BodyStream.Read) env.growslice fuel
        (LimitReader body 64000) with
    | none => none
    | some (b, _) =>
      let (message, w) := decodeMessage env b w
      some (assemble env resp b message, w)

/-! ## Describing inputs -/

/-- The slice length a limited reader passes on: `len(p)` cut down to `N`. -/
def clip (k : Nat) (n : Int) : Nat := if (k : Int) > n then n.toNat else k

/-- The first 64000 bytes the body delivers; nothing when there is no body. -/
def Response.capped (resp : Response) : List Byte :=
  match resp.Body with
  | none => []
  | some body => body.bytes.take 64000

/-- Fuel that lets the read loop finish on this response. -/
def Response.steps (resp : Response) : Nat :=
  match resp.Body with
  | none => 0
  | some body => body.size + 1

/-! ## Sample inputs -/

/-- ASCII text as bytes. -/
def ascii (s : String) : List Byte := s.data.map fun c => UInt8.ofNat c.toNat

/-- A growth policy in the style of the Go runtime: doubling for small slices, a quarter
more for large ones. -/
def sampleGrow (c : Nat) : Nat := if c < 256 then 2 * c + 1 else c + (c + 768) / 4

/-- Body with one error entry. -/
def bodyOne : List Byte :=
  ascii "\x7b\"errors\":[\x7b\"code\":\"MANIFEST_UNKNOWN\",\"message\":\"manifest unknown\"\x7d]\x7d"

/-- Body with several entries, some without a message. -/
def bodyMany : List Byte :=
  ascii "\x7b\"errors\":[\x7b\"message\":\"first\"\x7d,\x7b\"code\":\"DENIED\"\x7d,\x7b\"message\":\"second\"\x7d,\x7b\"code\":\"UNKNOWN\"\x7d]\x7d"

/-- Body whose second entry has a number where the message string belongs. -/
def bodyMistyped : List Byte :=
  ascii "\x7b\"errors\":[\x7b\"message\":\"manifest unknown\"\x7d,\x7b\"message\":5\x7d]\x7d"

/-- Body that is no JSON at all. -/
def bodyHTML : List Byte := ascii "<html>502 Bad Gateway</html>"

/-- What `json.Unmarshal` does on the sample bodies. On `bodyMistyped` it decodes as far
as it can, leaves the entries in the payload and reports the type error of the second
entry; on text that is no JSON it leaves the payload untouched. -/
def sampleUnmarshal (b : List Byte) : ErrorResponse × Option String :=
  if b = bodyOne then (⟨[⟨"MANIFEST_UNKNOWN", "manifest unknown", ""⟩]⟩, none)
  else if b = bodyMany then
    (⟨[⟨"", "first", ""⟩, ⟨"DENIED", "", ""⟩, ⟨"", "second", ""⟩, ⟨"UNKNOWN", "", ""⟩]⟩, none)
  else if b = bodyMistyped then
    (⟨[⟨"", "manifest unknown", ""⟩, ⟨"", "", ""⟩]⟩,
      some "json: cannot unmarshal number into Go struct field ErrorInfo.errors.message of type string")
  else (⟨[]⟩, some "invalid character '<' looking for beginning of value")

/-- Rendering of a URL without query. -/
def sampleURLString (u : URL) : String := u.Scheme ++ "://" ++ u.Host ++ u.Path

def sampleEnv : Env where
  Unmarshal := sampleUnmarshal
  URLString := sampleURLString
  growslice := sampleGrow
  growslice_gt := by intro c; unfold sampleGrow; split <;> omega

def sampleURL : URL := ⟨"https", "example.com", "/v2/repo/manifests/latest", ""⟩

def sampleRequest : Request := ⟨"GET", some sampleURL⟩

def emptyWorld : World := ⟨[], []⟩

/-- A 404 whose body arrives in pieces and carries several error entries. -/
def respMany : Response :=
  ⟨"404 Not Found", 404, some ⟨[bodyMany.take 20, [], bodyMany.drop 20], IOError.EOF⟩,
    some sampleRequest⟩

/-- A 404 whose body has a number in the place of a message. -/
def respMistyped : Response :=
  ⟨"404 Not Found", 404, some ⟨[bodyMistyped], IOError.EOF⟩, some sampleRequest⟩

/-- A 502 of a proxy, with an HTML body. -/
def respHTML : Response :=
  ⟨"502 Bad Gateway", 502, some ⟨[bodyHTML], IOError.EOF⟩, some sampleRequest⟩

/-- A body of 80000 bytes whose connection breaks at the end. -/
def bodyHuge : BodyStream :=
  ⟨[List.replicate 40000 65, List.replicate 40000 66], IOError.other "connection reset by peer"⟩

def respHuge : Response := ⟨"500 Internal Server Error", 500, some bodyHuge, some sampleRequest⟩

/-- A response without body whose request has no URL. -/
def respBare : Response := ⟨"401 Unauthorized", 401, none, some ⟨"HEAD", none⟩⟩

/-- A response that was not obtained through a client: its `Request` is nil. -/
def respOrphan : Response := ⟨"500 Internal Server Error", 500, none, none⟩

/-! ## The bounded read -/

theorem take_toNat_append (c rest : List Byte) (n : Int) (h1 : c.length ≤ n.toNat) :
    c ++ rest.take (n - (c.length : Int)).toNat = (c ++ rest).take n.toNat := by
  have h2 : (n - (c.length : Int)).toNat = n.toNat - c.length := by omega
  rw [h2, List.take_append_eq_append_take, List.take_of_length_le h1]

theorem clip_le (k : Nat) (n : Int) (hn : 0 < n) : clip k n ≤ n.toNat := by
  unfold clip; split <;> omega

theorem clip_pos (k : Nat) (n : Int) (hn : 0 < n) (hk : 0 < k) : 0 < clip k n := by
  unfold clip; split <;> omega

theorem limited_read_done (s : BodyStream) (n : Int) (k : Nat) (hn : n ≤ 0) :
    LimitedReader.Read BodyStream.Read ⟨s, n⟩ k = ⟨[], some IOError.EOF, ⟨s, n⟩⟩ := by
  simp [LimitedReader.Read, hn]

theorem limited_read_nil (final : IOError) (n : Int) (k : Nat) (hn : ¬ n ≤ 0) :
    LimitedReader.Read BodyStream.Read ⟨⟨[], final⟩, n⟩ k
      = ⟨[], some final, ⟨⟨[], final⟩, n⟩⟩ := by
  simp [LimitedReader.Read, hn, BodyStream.Read]

theorem limited_read_cons (c : List Byte) (rest : List (List Byte)) (final : IOError)
    (n : Int) (k : Nat) (hn : ¬ n ≤ 0) :
    LimitedReader.Read BodyStream.Read ⟨⟨c :: rest, final⟩, n⟩ k
      = ⟨c.take (clip k n), none,
          ⟨⟨if c.length ≤ clip k n then rest else c.drop (clip k n) :: rest, final⟩,
            n - ((c.take (clip k n)).length : Int)⟩⟩ := by
  simp only [LimitedReader.Read, hn, BodyStream.Read, if_false]
  by_cases hc : c.length ≤ clip k n
  · have hc2 := hc
    unfold clip at hc2
    simp only [hc2, hc, if_true, List.take_of_length_le hc]
  · have hc2 := hc
    unfold clip at hc2
    simp only [hc2, hc, if_false]
    rfl

/-- Whatever the read loop returns is the buffer followed by the first `N` bytes of the
stream. -/
theorem loop_bytes (grow : Nat → Nat) : ∀ (fuel : Nat) (chunks : List (List Byte))
    (final : IOError) (n : Int) (b : List Byte) (cap : Nat)
    (out : List Byte × Option IOError),
    ReadAll.loop (LimitedReader.Read BodyStream.Read) grow fuel ⟨⟨chunks, final⟩, n⟩ b cap
      = some out →
    out.1 = b ++ chunks.flatten.take n.toNat := by
  intro fuel
  induction fuel with
  | zero => intro chunks final n b cap out h; simp [ReadAll.loop] at h
  | succ fuel ih =>
    intro chunks final n b cap out h
    rw [ReadAll.loop] at h
    by_cases hn : n ≤ 0
    · rw [limited_read_done _ _ _ hn] at h
      simp at h
      subst h
      have : n.toNat = 0 := by omega
      simp [this]
    · cases chunks with
      | nil =>
        rw [limited_read_nil _ _ _ hn] at h
        simp at h
        subst h
        simp
      | cons c rest =>
        rw [limited_read_cons _ _ _ _ _ hn] at h
        simp only at h
        have hle := clip_le (cap - b.length) n (by omega)
        generalize clip (cap - b.length) n = k at h hle
        by_cases hc : c.length ≤ k
        · simp only [hc, if_true, List.take_of_length_le hc] at h
          rw [ih _ _ _ _ _ _ h, List.flatten_cons, List.append_assoc,
            take_toNat_append c rest.flatten n (by omega)]
        · simp only [hc, if_false] at h
          have hlen : (c.take k).length ≤ n.toNat := by
            rw [List.length_take]; omega
          rw [ih _ _ _ _ _ _ h, List.flatten_cons, List.flatten_cons, List.append_assoc,
            take_toNat_append (c.take k) (c.drop k ++ rest.flatten) n hlen,
            ← List.append_assoc (c.take k), List.take_append_drop]

/-- The read loop returns once the fuel exceeds the size of the stream: every round
either ends the loop or uses up a chunk or at least one byte. -/
theorem loop_returns (grow : Nat → Nat) (hgrow : ∀ c, c < grow c) : ∀ (fuel : Nat)
    (chunks : List (List Byte)) (final : IOError) (n : Int) (b : List Byte) (cap : Nat),
    b.length < cap → BodyStream.size ⟨chunks, final⟩ < fuel →
    ∃ out, ReadAll.loop (LimitedReader.Read BodyStream.Read) grow fuel
      ⟨⟨chunks, final⟩, n⟩ b cap = some out := by
  intro fuel
  induction fuel with
  | zero => intro chunks final n b cap _ h; omega
  | succ fuel ih =>
    intro chunks final n b cap hcap hsize
    rw [ReadAll.loop]
    by_cases hn : n ≤ 0
    · rw [limited_read_done _ _ _ hn]
      exact ⟨_, rfl⟩
    · cases chunks with
      | nil =>
        rw [limited_read_nil _ _ _ hn]
        exact ⟨_, rfl⟩
      | cons c rest =>
        rw [limited_read_cons _ _ _ _ _ hn]
        simp only
        have hpos := clip_pos (cap - b.length) n (by omega) (by omega)
        have hk : clip (cap - b.length) n ≤ cap - b.length := by unfold clip; split <;> omega
        generalize clip (cap - b.length) n = k at hpos hk
        simp only [BodyStream.size, List.map_cons, List.sum_cons] at hsize
        apply ih
        · rw [List.length_append, List.length_take]
          split <;> have := hgrow cap <;> omega
        · by_cases hc : c.length ≤ k
          · simp only [hc, if_true, BodyStream.size]; omega
          · simp only [hc, if_false, BodyStream.size, List.map_cons, List.sum_cons,
              List.length_drop]; omega

theorem readAll_bytes (grow : Nat → Nat) (fuel : Nat) (body : BodyStream)
    (out : List Byte × Option IOError)
    (h : ReadAll (LimitedReader.Read BodyStream.Read) grow fuel (LimitReader body 64000)
      = some out) :
    out.1 = body.bytes.take 64000 := by
  have := loop_bytes grow fuel body.chunks body.final 64000 [] 512 out h
  simpa [BodyStream.bytes] using this

theorem readAll_returns (grow : Nat → Nat) (hgrow : ∀ c, c < grow c) (fuel : Nat)
    (body : BodyStream) (hfuel : body.size < fuel) :
    ∃ e, ReadAll (LimitedReader.Read BodyStream.Read) grow fuel (LimitReader body 64000)
      = some (body.bytes.take 64000, e) := by
  obtain ⟨out, hout⟩ :=
    loop_returns grow hgrow fuel body.chunks body.final 64000 [] 512 (by simp) hfuel
  have hb := readAll_bytes grow fuel body out hout
  refine ⟨out.2, ?_⟩
  rw [← hb]
  exact hout

/-! ## The constructor in closed form -/

/-- Whenever the constructor finishes, it has decoded the capped body and assembled the
value from it. -/
theorem new_of_some (env : Env) (fuel : Nat) (resp : Response) (w : World)
    (r : Outcome × World) (h : NewUnexpectedStatusErr env fuel resp w = some r) :
    r = (assemble env resp resp.capped (decodeMessage env resp.capped w).1,
          (decodeMessage env resp.capped w).2) := by
  unfold NewUnexpectedStatusErr at h
  cases hb : resp.Body with
  | none =>
    simp only [hb] at h
    simp only [Response.capped, hb, decodeMessage]
    simpa using h.symm
  | some body =>
    simp only [hb] at h
    cases hr : ReadAll (LimitedReader.Read BodyStream.Read) env.growslice fuel
        (LimitReader body 64000) with
    | none => simp [hr] at h
    | some out =>
      have hbytes := readAll_bytes _ _ _ _ hr
      obtain ⟨b, e⟩ := out
      simp only at hbytes
      subst hbytes
      simp only [hr, Option.some.injEq] at h
      simp only [Response.capped, hb]
      exact h.symm

/-- With enough fuel the constructor finishes. -/
theorem new_eq (env : Env) (fuel : Nat) (resp : Response) (w : World)
    (hfuel : resp.steps ≤ fuel) :
    NewUnexpectedStatusErr env fuel resp w
      = some (assemble env resp resp.capped (decodeMessage env resp.capped w).1,
          (decodeMessage env resp.capped w).2) := by
  have hsome : ∃ r, NewUnexpectedStatusErr env fuel resp w = some r := by
    unfold NewUnexpectedStatusErr
    cases hb : resp.Body with
    | none => exact ⟨_, rfl⟩
    | some body =>
      simp only [Response.steps, hb] at hfuel
      obtain ⟨e, he⟩ := readAll_returns env.growslice env.growslice_gt fuel body (by omega)
      simp only [he]
      exact ⟨_, rfl⟩
  obtain ⟨r, hr⟩ := hsome
  rw [hr, new_of_some env fuel resp w r hr]

/-! ## Pieces of the constructor -/

theorem string_length_pos (s : String) : 0 < s.length ↔ s ≠ "" := by
  cases s with
  | mk d => cases d <;> simp [String.length, String.ext_iff]

theorem foldl_message_keep (l : List ErrorInfo) (m : String)
    (h : ∀ y ∈ l, y.Message = "") :
    l.foldl (fun message e => if 0 < e.Message.length then e.Message else message) m = m := by
  induction l generalizing m with
  | nil => rfl
  | cons a l ih =>
    have ha : a.Message = "" := h a (List.mem_cons_self _ _)
    have hl : ∀ y ∈ l, y.Message = "" := fun y hy => h y (List.mem_cons_of_mem _ hy)
    simp only [List.foldl_cons, ha]
    exact ih _ hl

theorem lastMessage_none (l : List ErrorInfo) (h : ∀ y ∈ l, y.Message = "") :
    lastMessage l = "" :=
  foldl_message_keep l "" h

theorem lastMessage_last (pre post : List ErrorInfo) (x : ErrorInfo) (hx : x.Message ≠ "")
    (hpost : ∀ y ∈ post, y.Message = "") :
    lastMessage (pre ++ x :: post) = x.Message := by
  unfold lastMessage
  rw [List.foldl_append, List.foldl_cons, if_pos ((string_length_pos _).2 hx)]
  exact foldl_message_keep post _ hpost

theorem sprintf_debug (err : String) :
    Sprintf "Unmarshal response body failed: %v" [err]
      = "Unmarshal response body failed: " ++ err := by
  apply String.ext
  simp [Sprintf, Sprintf.go]

theorem decodeMessage_nil (env : Env) (w : World) : decodeMessage env [] w = ("", w) := by
  simp [decodeMessage]

theorem decodeMessage_ok (env : Env) (b : List Byte) (w : World) (r : ErrorResponse)
    (hb : b ≠ []) (hdec : env.Unmarshal b = (r, none)) :
    decodeMessage env b w = (lastMessage r.Errors, { w with decoded := w.decoded ++ [b] }) := by
  have hlen : 0 < b.length := List.length_pos.2 hb
  simp [decodeMessage, hlen, hdec]

theorem decodeMessage_err (env : Env) (b : List Byte) (w : World) (r : ErrorResponse)
    (err : String) (hb : b ≠ []) (hdec : env.Unmarshal b = (r, some err)) :
    decodeMessage env b w
      = (lastMessage r.Errors,
          { log := w.log ++ ["Unmarshal response body failed: " ++ err],
            decoded := w.decoded ++ [b] }) := by
  have hlen : 0 < b.length := List.length_pos.2 hb
  simp [decodeMessage, hlen, hdec, sprintf_debug]

theorem assemble_some (env : Env) (resp : Response) (req : Request) (b : List Byte)
    (m : String) (hreq : resp.Request = some req) :
    assemble env resp b m
      = Outcome.returned
          { Status := resp.Status, StatusCode := resp.StatusCode, Body := b,
            RequestURL := (match req.URL with | some u => env.URLString u | none => ""),
            RequestMethod := req.Method, Message := m } := by
  unfold assemble
  simp only [hreq]
  cases req.URL <;> rfl

theorem assemble_returned (env : Env) (resp : Response) (b : List Byte) (m : String)
    (e : ErrUnexpectedStatus) (h : assemble env resp b m = Outcome.returned e) :
    e.Body = b ∧ e.Message = m := by
  cases hreq : resp.Request with
  | none => simp [assemble, hreq] at h
  | some req =>
    rw [assemble_some env resp req b m hreq] at h
    injection h with h
    subst h
    exact ⟨rfl, rfl⟩

theorem capped_length (resp : Response) : resp.capped.length ≤ 64000 := by
  unfold Response.capped
  cases resp.Body with
  | none => simp
  | some body => exact List.length_take_le _ _

theorem capped_some (resp : Response) (body : BodyStream) (hbody : resp.Body = some body) :
    resp.capped = body.bytes.take 64000 := by
  simp [Response.capped, hbody]

theorem steps_some (resp : Response) (body : BodyStream) (fuel : Nat)
    (hbody : resp.Body = some body) (hfuel : body.size < fuel) : resp.steps ≤ fuel := by
  simp only [Response.steps, hbody]; omega

theorem size_pair (a b : List Byte) (f : IOError) :
    BodyStream.size ⟨[a, b], f⟩ = a.length + 1 + (b.length + 1 + 0) := rfl

theorem bytes_pair (a b : List Byte) (f : IOError) :
    BodyStream.bytes ⟨[a, b], f⟩ = a ++ (b ++ []) := rfl

theorem bodyHuge_size : bodyHuge.size < 80003 := by
  rw [bodyHuge, size_pair, List.length_replicate, List.length_replicate]; omega

theorem bodyHuge_long : 64000 < bodyHuge.bytes.length := by
  rw [bodyHuge, bytes_pair, List.length_append, List.length_append, List.length_replicate,
    List.length_replicate]; simp

/-- With a request present and enough fuel the constructor returns an error value. -/
theorem new_returned (env : Env) (fuel : Nat) (resp : Response) (req : Request) (w : World)
    (hreq : resp.Request = some req) (hfuel : resp.steps ≤ fuel) :
    NewUnexpectedStatusErr env fuel resp w
      = some (Outcome.returned
          { Status := resp.Status, StatusCode := resp.StatusCode, Body := resp.capped,
            RequestURL := (match req.URL with | some u => env.URLString u | none => ""),
            RequestMethod := req.Method,
            Message := (decodeMessage env resp.capped w).1 },
          (decodeMessage env resp.capped w).2) := by
  rw [new_eq env fuel resp w hfuel, assemble_some env resp req _ _ hreq]

/-! ## Message extraction -/

/-- C1: when the capped body was read (it is not empty) and decodes without error to the
entries `r.Errors`, the constructor returns an error whose Message is the message of the
last entry with a non-empty message, however many earlier entries have one, and the empty
string when no entry has a non-empty message (so also for zero entries). -/
theorem C1_last_non_empty_message_wins (env : Env) (resp : Response) (req : Request)
    (body : BodyStream) (r : ErrorResponse) (w : World) (fuel : Nat)
    (hreq : resp.Request = some req) (hbody : resp.Body = some body)
    (hfuel : body.size < fuel) (hread : body.bytes.take 64000 ≠ [])
    (hdec : env.Unmarshal (body.bytes.take 64000) = (r, none)) :
    ∃ e w', NewUnexpectedStatusErr env fuel resp w = some (Outcome.returned e, w') ∧
      (∀ pre x post, r.Errors = pre ++ x :: post → x.Message ≠ "" →
        (∀ y ∈ post, y.Message = "") → e.Message = x.Message) ∧
      ((∀ y ∈ r.Errors, y.Message = "") → e.Message = "") := by
  have h := new_returned env fuel resp req w hreq (steps_some resp body fuel hbody hfuel)
  rw [capped_some resp body hbody, decodeMessage_ok env _ w r hread hdec] at h
  refine ⟨_, _, h, ?_, ?_⟩
  · intro pre x post hsplit hx hpost
    show lastMessage r.Errors = x.Message
    rw [hsplit]
    exact lastMessage_last pre post x hx hpost
  · intro hall
    exact lastMessage_none r.Errors hall

/-- C1 at `respMany`: of the messages "first" and "second" the later one is reported. -/
theorem C1_witness :
    ∃ e w', NewUnexpectedStatusErr sampleEnv 200 respMany emptyWorld
        = some (Outcome.returned e, w') ∧ e.Message = "second" := by
  obtain ⟨e, w', h, hlast, _⟩ :=
    C1_last_non_empty_message_wins sampleEnv respMany sampleRequest
      ⟨[bodyMany.take 20, [], bodyMany.drop 20], IOError.EOF⟩
      ⟨[⟨"", "first", ""⟩, ⟨"DENIED", "", ""⟩, ⟨"", "second", ""⟩, ⟨"UNKNOWN", "", ""⟩]⟩
      emptyWorld 200 rfl rfl (by decide) (by decide) (by decide)
  exact ⟨e, w', h,
    hlast [⟨"", "first", ""⟩, ⟨"DENIED", "", ""⟩] ⟨"", "second", ""⟩ [⟨"UNKNOWN", "", ""⟩]
      rfl (by decide) (by decide)⟩

/-! ## The cap on the body -/

/-- C2: whatever the body stream does (absent, short, huge, failing part-way), the Body
of the error the constructor returns is at most 64000 bytes long; and with a request
present and enough fuel the constructor does return such an error. -/
theorem C2_body_at_most_cap (env : Env) (resp : Response) (w : World) :
    (∀ fuel e w', NewUnexpectedStatusErr env fuel resp w = some (Outcome.returned e, w') →
      e.Body.length ≤ 64000) ∧
    (∀ req fuel, resp.Request = some req → resp.steps ≤ fuel →
      ∃ e w', NewUnexpectedStatusErr env fuel resp w = some (Outcome.returned e, w') ∧
        e.Body.length ≤ 64000) := by
  constructor
  · intro fuel e w' h
    have h2 := new_of_some env fuel resp w _ h
    injection h2 with h3 _
    rw [(assemble_returned env resp _ _ e h3.symm).1]
    exact capped_length resp
  · intro req fuel hreq hfuel
    exact ⟨_, _, new_returned env fuel resp req w hreq hfuel, capped_length resp⟩

/-- C2 at `respHuge`, a body of 80000 bytes on a connection that breaks. -/
theorem C2_witness :
    ∃ e w', NewUnexpectedStatusErr sampleEnv 80003 respHuge emptyWorld
        = some (Outcome.returned e, w') ∧ e.Body.length ≤ 64000 :=
  (C2_body_at_most_cap sampleEnv respHuge emptyWorld).2 sampleRequest 80003 rfl
    (steps_some respHuge bodyHuge 80003 rfl bodyHuge_size)

/-- C3: when the body stream delivers more than 64000 bytes, the constructor returns an
error whose Body is exactly 64000 bytes long and is the first 64000 bytes of the stream,
in order. -/
theorem C3_long_body_truncated (env : Env) (resp : Response) (req : Request)
    (body : BodyStream) (w : World) (fuel : Nat)
    (hreq : resp.Request = some req) (hbody : resp.Body = some body)
    (hlong : 64000 < body.bytes.length) (hfuel : body.size < fuel) :
    ∃ e w', NewUnexpectedStatusErr env fuel resp w = some (Outcome.returned e, w') ∧
      e.Body.length = 64000 ∧ e.Body = body.bytes.take 64000 := by
  have h := new_returned env fuel resp req w hreq (steps_some resp body fuel hbody hfuel)
  rw [capped_some resp body hbody] at h
  refine ⟨_, _, h, ?_, rfl⟩
  show (body.bytes.take 64000).length = 64000
  rw [List.length_take]; omega

/-- C3 at `respHuge`: 80000 bytes arrive, 64000 are kept. -/
theorem C3_witness :
    64000 < bodyHuge.bytes.length ∧
    ∃ e w', NewUnexpectedStatusErr sampleEnv 80003 respHuge emptyWorld
        = some (Outcome.returned e, w') ∧
      e.Body.length = 64000 ∧ e.Body = bodyHuge.bytes.take 64000 :=
  ⟨bodyHuge_long,
    C3_long_body_truncated sampleEnv respHuge sampleRequest bodyHuge emptyWorld 80003 rfl rfl
      bodyHuge_long bodyHuge_size⟩

/-! ## Rendering -/

/-- C4: for every error value, also one with empty fields, `Error()` is exactly
"unexpected status(" Status ") from " RequestMethod " request to " RequestURL ": "
Message, nothing left out or reordered; and the 404 example of the specification
renders as written there. -/
theorem C4_error_rendering (e : ErrUnexpectedStatus) :
    e.Error = "unexpected status(" ++ e.Status ++ ") from " ++ e.RequestMethod
        ++ " request to " ++ e.RequestURL ++ ": " ++ e.Message ∧
    ErrUnexpectedStatus.Error
        ⟨"404 Not Found", 404, [], "https://example.com/v2/repo/manifests/latest", "GET",
          "manifest unknown"⟩
      = "unexpected status(404 Not Found) from GET request to https://example.com/v2/repo/manifests/latest: manifest unknown" := by
  constructor
  · apply String.ext
    simp [ErrUnexpectedStatus.Error, Sprintf, Sprintf.go]
  · decide

/-! ## Undecodable bodies -/

/-- C5, refuted as stated: on `respMistyped` the decoder reports a type error for the
second entry after it has stored the first one; the constructor logs the error and still
takes the message of the stored entry, so Message is "manifest unknown", not empty. -/
theorem C5_counterexample :
    (sampleEnv.Unmarshal respMistyped.capped).2
        = some "json: cannot unmarshal number into Go struct field ErrorInfo.errors.message of type string" ∧
    respMistyped.capped ≠ [] ∧
    NewUnexpectedStatusErr sampleEnv 100 respMistyped emptyWorld
      = some (Outcome.returned
          ⟨"404 Not Found", 404, bodyMistyped, "https://example.com/v2/repo/manifests/latest",
            "GET", "manifest unknown"⟩,
        ⟨["Unmarshal response body failed: json: cannot unmarshal number into Go struct field ErrorInfo.errors.message of type string"],
          [bodyMistyped]⟩) ∧
    ("manifest unknown" : String) ≠ "" := by
  refine ⟨by decide, by decide, by decide, by decide⟩

/-- C5 as amended: when the capped body was read (it is not empty) and the decoder
reports an error, the constructor still returns an error value; its Message is the
message of the last entry with a non-empty message among the entries the decoder left
in the payload, and the empty string when it left no such entry (so whenever it left
the payload untouched). -/
theorem C5_undecodable_body_message (env : Env) (resp : Response) (req : Request)
    (body : BodyStream) (r : ErrorResponse) (err : String) (w : World) (fuel : Nat)
    (hreq : resp.Request = some req) (hbody : resp.Body = some body)
    (hfuel : body.size < fuel) (hread : body.bytes.take 64000 ≠ [])
    (hdec : env.Unmarshal (body.bytes.take 64000) = (r, some err)) :
    ∃ e w', NewUnexpectedStatusErr env fuel resp w = some (Outcome.returned e, w') ∧
      (∀ pre x post, r.Errors = pre ++ x :: post → x.Message ≠ "" →
        (∀ y ∈ post, y.Message = "") → e.Message = x.Message) ∧
      ((∀ y ∈ r.Errors, y.Message = "") → e.Message = "") := by
  have h := new_returned env fuel resp req w hreq (steps_some resp body fuel hbody hfuel)
  rw [capped_some resp body hbody, decodeMessage_err env _ w r err hread hdec] at h
  refine ⟨_, _, h, ?_, ?_⟩
  · intro pre x post hsplit hx hpost
    show lastMessage r.Errors = x.Message
    rw [hsplit]
    exact lastMessage_last pre post x hx hpost
  · intro hall
    exact lastMessage_none r.Errors hall

/-- C5 as amended, at `respHTML`: the decoder leaves the payload untouched and Message is
empty. -/
theorem C5_witness :
    ∃ e w', NewUnexpectedStatusErr sampleEnv 100 respHTML emptyWorld
        = some (Outcome.returned e, w') ∧ e.Message = "" := by
  obtain ⟨e, w', h, _, hnone⟩ :=
    C5_undecodable_body_message sampleEnv respHTML sampleRequest ⟨[bodyHTML], IOError.EOF⟩
      ⟨[]⟩ "invalid character '<' looking for beginning of value" emptyWorld 100 rfl rfl
      (by decide) (by decide) (by decide)
  exact ⟨e, w', h, hnone (by simp)⟩

/-! ## Failure of the constructor itself -/

/-- C6, refuted as stated: on `respOrphan`, a response whose originating request is absent,
the struct literal dereferences the nil `resp.Request`; the call panics and returns no
error value, whatever the fuel. -/
theorem C6_counterexample :
    NewUnexpectedStatusErr sampleEnv 0 respOrphan emptyWorld
      = some (Outcome.panicked
          "runtime error: invalid memory address or nil pointer dereference", emptyWorld) ∧
    ¬ ∃ fuel e w', NewUnexpectedStatusErr sampleEnv fuel respOrphan emptyWorld
      = some (Outcome.returned e, w') := by
  constructor
  · decide
  · rintro ⟨fuel, e, w', h⟩
    have h2 := new_of_some sampleEnv fuel respOrphan emptyWorld _ h
    injection h2 with h3 _
    simp [assemble, respOrphan] at h3

/-- C6 as amended: for every response whose originating request is present (body absent,
empty, oversized, failing or undecodable; request URL absent or present) the
constructor, given enough fuel for the read loop, returns an ErrUnexpectedStatus value:
it does not panic, and no read or decode error reaches the caller. -/
theorem C6_returns_with_request (env : Env) (resp : Response) (req : Request) (w : World)
    (fuel : Nat) (hreq : resp.Request = some req) (hfuel : resp.steps ≤ fuel) :
    ∃ e w', NewUnexpectedStatusErr env fuel resp w = some (Outcome.returned e, w') :=
  ⟨_, _, new_returned env fuel resp req w hreq hfuel⟩

/-- C6 as amended, at `respHTML`, whose body is no JSON. -/
theorem C6_witness :
    ∃ e w', NewUnexpectedStatusErr sampleEnv 30 respHTML emptyWorld
      = some (Outcome.returned e, w') :=
  C6_returns_with_request sampleEnv respHTML sampleRequest emptyWorld 30 rfl (by decide)

/-! ## Fields copied from the response and the request -/

/-- C7: for a response with a request, Status and StatusCode are those of the response
and RequestMethod that of the request; RequestURL is the string form of the URL when
there is one and empty when there is none, and in that case the error is, but for
RequestURL, the one built for the same response with any URL put in. -/
theorem C7_fields_copied (env : Env) (resp : Response) (req : Request) (w : World)
    (fuel : Nat) (hreq : resp.Request = some req) (hfuel : resp.steps ≤ fuel) :
    ∃ e w', NewUnexpectedStatusErr env fuel resp w = some (Outcome.returned e, w') ∧
      e.Status = resp.Status ∧ e.StatusCode = resp.StatusCode ∧
      e.RequestMethod = req.Method ∧
      (∀ u, req.URL = some u → e.RequestURL = env.URLString u) ∧
      (req.URL = none → e.RequestURL = "" ∧
        ∀ u, ∃ e2, NewUnexpectedStatusErr env fuel
            { resp with Request := some { req with URL := some u } } w
              = some (Outcome.returned e2, w') ∧
          e2.RequestURL = env.URLString u ∧
          e = { e2 with RequestURL := "" }) := by
  refine ⟨_, _, new_returned env fuel resp req w hreq hfuel, rfl, rfl, rfl, ?_, ?_⟩
  · intro u hu
    simp only [hu]
  · intro hu
    refine ⟨by simp only [hu], ?_⟩
    intro u
    have hsteps : Response.steps { resp with Request := some { req with URL := some u } }
        ≤ fuel := hfuel
    refine ⟨_, new_returned env fuel _ { req with URL := some u } w rfl hsteps, rfl, ?_⟩
    simp only [hu]
    rfl

/-- C7 at `respBare`, a HEAD request without URL. -/
theorem C7_witness :
    ∃ e w', NewUnexpectedStatusErr sampleEnv 0 respBare emptyWorld
        = some (Outcome.returned e, w') ∧
      e.Status = "401 Unauthorized" ∧ e.StatusCode = 401 ∧ e.RequestMethod = "HEAD" ∧
      e.RequestURL = "" := by
  obtain ⟨e, w', h, h1, h2, h3, _, h5⟩ :=
    C7_fields_copied sampleEnv respBare ⟨"HEAD", none⟩ emptyWorld 0 rfl (by decide)
  exact ⟨e, w', h, h1, h2, h3, (h5 rfl).1⟩

/-! ## Responses without body -/

/-- C8: for a response without body (and with a request) the constructor returns, for
any fuel, an error whose Body and Message are empty; the decoder is not called and
nothing is logged. -/
theorem C8_no_body (env : Env) (resp : Response) (req : Request) (w : World) (fuel : Nat)
    (hbody : resp.Body = none) (hreq : resp.Request = some req) :
    ∃ e w', NewUnexpectedStatusErr env fuel resp w = some (Outcome.returned e, w') ∧
      e.Body = [] ∧ e.Message = "" ∧ w'.decoded = w.decoded ∧ w'.log = w.log := by
  have hsteps : resp.steps ≤ fuel := by simp [Response.steps, hbody]
  have hcap : resp.capped = [] := by simp [Response.capped, hbody]
  have h := new_returned env fuel resp req w hreq hsteps
  rw [hcap, decodeMessage_nil] at h
  exact ⟨_, _, h, rfl, rfl, rfl, rfl⟩

/-- C8 at `respBare`, with no fuel at all. -/
theorem C8_witness :
    ∃ e w', NewUnexpectedStatusErr sampleEnv 0 respBare emptyWorld
        = some (Outcome.returned e, w') ∧
      e.Body = [] ∧ e.Message = "" ∧ w'.decoded = emptyWorld.decoded ∧
      w'.log = emptyWorld.log :=
  C8_no_body sampleEnv respBare ⟨"HEAD", none⟩ emptyWorld 0 rfl rfl

/-! ## The logging sink -/

/-- C9: with the logging sink as the list `log` of the world, one call (given enough fuel)
appends exactly one line, the rendered decode error, when a non-empty capped body was
read and its decode failed; it leaves the sink as it was when the body is absent, when
zero bytes were read and when the decode succeeded; so it never appends more than one. -/
theorem C9_one_diagnostic (env : Env) (resp : Response) (w : World) (fuel : Nat)
    (hfuel : resp.steps ≤ fuel) :
    ∃ out w', NewUnexpectedStatusErr env fuel resp w = some (out, w') ∧
      (∀ err, resp.capped ≠ [] → (env.Unmarshal resp.capped).2 = some err →
        w'.log = w.log ++ ["Unmarshal response body failed: " ++ err]) ∧
      (resp.Body = none → w'.log = w.log) ∧
      (resp.capped = [] → w'.log = w.log) ∧
      ((env.Unmarshal resp.capped).2 = none → w'.log = w.log) ∧
      w'.log.length ≤ w.log.length + 1 := by
  refine ⟨_, _, new_eq env fuel resp w hfuel, ?_, ?_, ?_, ?_, ?_⟩
  · intro err hne hdec
    rw [decodeMessage_err env _ w (env.Unmarshal resp.capped).1 err hne
      (by rw [← hdec])]
  · intro hbody
    have hcap : resp.capped = [] := by simp [Response.capped, hbody]
    rw [hcap, decodeMessage_nil]
  · intro hcap
    rw [hcap, decodeMessage_nil]
  · intro hdec
    by_cases hcap : resp.capped = []
    · rw [hcap, decodeMessage_nil]
    · rw [decodeMessage_ok env _ w (env.Unmarshal resp.capped).1 hcap (by rw [← hdec])]
  · by_cases hcap : resp.capped = []
    · rw [hcap, decodeMessage_nil]
      show w.log.length ≤ w.log.length + 1
      omega
    · cases hdec : (env.Unmarshal resp.capped).2 with
      | none =>
        rw [decodeMessage_ok env _ w (env.Unmarshal resp.capped).1 hcap (by rw [← hdec])]
        show w.log.length ≤ w.log.length + 1
        omega
      | some err =>
        rw [decodeMessage_err env _ w (env.Unmarshal resp.capped).1 err hcap
          (by rw [← hdec])]
        simp

/-- C9 at `respHTML`: the one line that is logged. -/
theorem C9_witness :
    ∃ out w', NewUnexpectedStatusErr sampleEnv 30 respHTML emptyWorld = some (out, w') ∧
      w'.log = ["Unmarshal response body failed: invalid character '<' looking for beginning of value"] := by
  obtain ⟨out, w', h, h1, _⟩ := C9_one_diagnostic sampleEnv respHTML emptyWorld 30 (by decide)
  exact ⟨out, w', h,
    h1 "invalid character '<' looking for beginning of value" (by decide) (by decide)⟩

/-! ## Bodies within the cap -/

/-- C10: when the body stream delivers at most 64000 bytes (and then ends; the same holds
when it ends with a read error, which the constructor drops), the Body of the returned
error is the whole body, byte for byte, and Message is computed from exactly those
bytes: for a non-empty body they are the one input handed to the decoder and Message is
taken from what it yields, for an empty body the decoder is not called and Message is
empty. -/
theorem C10_short_body_kept (env : Env) (resp : Response) (req : Request)
    (body : BodyStream) (w : World) (fuel : Nat)
    (hreq : resp.Request = some req) (hbody : resp.Body = some body)
    (hshort : body.bytes.length ≤ 64000) (hfuel : body.size < fuel) :
    ∃ e w', NewUnexpectedStatusErr env fuel resp w = some (Outcome.returned e, w') ∧
      e.Body = body.bytes ∧ e.Body.length = body.bytes.length ∧
      (body.bytes = [] → e.Message = "" ∧ w'.decoded = w.decoded) ∧
      (body.bytes ≠ [] → e.Message = lastMessage (env.Unmarshal body.bytes).1.Errors ∧
        w'.decoded = w.decoded ++ [body.bytes]) := by
  have h := new_returned env fuel resp req w hreq (steps_some resp body fuel hbody hfuel)
  rw [capped_some resp body hbody, List.take_of_length_le hshort] at h
  refine ⟨_, _, h, rfl, rfl, ?_, ?_⟩
  · intro hnil
    rw [hnil, decodeMessage_nil]
    exact ⟨rfl, rfl⟩
  · intro hne
    cases hdec : (env.Unmarshal body.bytes).2 with
    | none =>
      rw [decodeMessage_ok env _ w (env.Unmarshal body.bytes).1 hne (by rw [← hdec])]
      exact ⟨rfl, rfl⟩
    | some err =>
      rw [decodeMessage_err env _ w (env.Unmarshal body.bytes).1 err hne (by rw [← hdec])]
      exact ⟨rfl, rfl⟩

/-- C10 at a 404 whose body `bodyOne` arrives in one piece. -/
theorem C10_witness :
    ∃ e w', NewUnexpectedStatusErr sampleEnv 100
        ⟨"404 Not Found", 404, some ⟨[bodyOne], IOError.EOF⟩, some sampleRequest⟩ emptyWorld
        = some (Outcome.returned e, w') ∧
      e.Body = bodyOne ∧ e.Message = "manifest unknown" ∧ w'.decoded = [bodyOne] := by
  obtain ⟨e, w', h, h1, _, _, h4⟩ :=
    C10_short_body_kept sampleEnv
      ⟨"404 Not Found", 404, some ⟨[bodyOne], IOError.EOF⟩, some sampleRequest⟩ sampleRequest
      ⟨[bodyOne], IOError.EOF⟩ emptyWorld 100 rfl rfl (by decide) (by decide)
  have h5 := h4 (by decide)
  refine ⟨e, w', h, ?_, ?_, ?_⟩
  · rw [h1]; decide
  · rw [h5.1]; decide
  · rw [h5.2]; decide

end Errors
